import Mathlib

/-!
Verification of the applicant-analysis pipeline (analyse.py and
analyser2020.py): a shallow embedding of the record model, the
deduplication, age-calculation, eligibility and course-splitting
operations, with proofs of the specified properties.
-/

namespace AnalyseApplications

/-- A legacy-schema applicant record (the 19 named columns assigned by
`read_data_file` in analyse.py, plus the `Qualify` column added by
`check_qualification`).  All cells are strings, as in the CSV frame. -/
structure LRecord where
  name : String := ""
  gender : String := ""
  birthDate : String := ""
  age : String := ""
  nationality : String := ""
  postalAddress : String := ""
  country : String := ""
  emailAddress : String := ""
  phoneNumber : String := ""
  course : String := ""
  cseeYear : String := ""
  oLevelNumber : String := ""
  biology : String := ""
  chemistry : String := ""
  physics : String := ""
  maths : String := ""
  english : String := ""
  code : String := ""
  how : String := ""
  qualify : String := ""
deriving Repr, DecidableEq

/-- A newer-schema applicant record (the 30 named columns assigned by
`read_data_file` in analyser2020.py, plus the inserted `full_name`
column and the `Qualify` column added by `check_qualification`). -/
structure Record2020 where
  first_name : String := ""
  second_name : String := ""
  surname : String := ""
  full_name : String := ""
  birth_date : String := ""
  age : String := ""
  gender : String := ""
  nationality : String := ""
  disability : String := ""
  form4index : String := ""
  form4year : String := ""
  physics : String := ""
  chemistry : String := ""
  biology : String := ""
  maths : String := ""
  english : String := ""
  form6index : String := ""
  form6year : String := ""
  phone : String := ""
  email : String := ""
  postal_address : String := ""
  region : String := ""
  district : String := ""
  nextOfKinName : String := ""
  nextOfKinPhone : String := ""
  nextOfKinAddress : String := ""
  nextOfKinRelation : String := ""
  nextOfKinRegion : String := ""
  nta4RegNumber : String := ""
  nta4GradeYear : String := ""
  nta5RegNumber : String := ""
  nta5GradeYear : String := ""
  qualify : String := ""
deriving Repr, DecidableEq

/-- Pandas `drop_duplicates(subset=[k], keep=first)` over a list of rows:
keep the first row carrying each key value, drop every later row whose
key value was already seen.  `seen` accumulates the key values kept so
far (the pass starts with `seen = []`). -/
def dropDuplicatesBy (key : α → String) : List α → List String → List α
  | [], _ => []
  | r :: rs, seen =>
      if key r ∈ seen then dropDuplicatesBy key rs seen
      else r :: dropDuplicatesBy key rs (key r :: seen)

/-- Split a character list at every character satisfying `p`, keeping the
(possibly empty) groups between separators, as Python `str.split(sep)`
does for a single-character separator. -/
def splitOnPred (p : Char → Bool) : List Char → List (List Char)
  | [] => [[]]
  | c :: cs =>
      let rest := splitOnPred p cs
      if p c then [] :: rest
      else
        match rest with
        | [] => [[c]]
        | g :: gs => (c :: g) :: gs

/-- Python `str.split()` with no argument: split on whitespace runs and
drop the empty groups. -/
def pySplitWs (cs : List Char) : List (List Char) :=
  (splitOnPred Char.isWhitespace cs).filter (fun g => g ≠ [])

/-- Python `' '.join(words)` over character-list words. -/
def joinSpace : List (List Char) → List Char
  | [] => []
  | [w] => w
  | w :: ws => w ++ ' ' :: joinSpace ws

/-- The name normalisation applied to every name-bearing column:
`lambda x: ' '.join(x.upper().split())` — uppercase, then collapse
leading, internal and trailing whitespace to single separators. -/
def normalizeName (s : String) : String :=
  String.mk (joinSpace (pySplitWs (s.toList.map Char.toUpper)))

/-- A calendar date as produced by `datetime.strptime(born, "%Y-%m-%d")`. -/
structure Date where
  year : Nat
  month : Nat
  day : Nat
deriving Repr, DecidableEq

/-- Gregorian leap-year test, as applied by `datetime` when validating a
parsed `%d` field against its month. -/
def isLeapYear (y : Nat) : Bool :=
  (y % 4 == 0 && y % 100 != 0) || y % 400 == 0

/-- Number of days in a month, used by `datetime` to validate the day field. -/
def daysInMonth (y m : Nat) : Nat :=
  if m = 2 then (if isLeapYear y then 29 else 28)
  else if m = 4 ∨ m = 6 ∨ m = 9 ∨ m = 11 then 30
  else 31

/-- Read a non-empty all-digit character group as a decimal number,
as `strptime` reads the `%Y`, `%m` and `%d` fields. -/
def digitsToNat (cs : List Char) : Option Nat :=
  match cs with
  | [] => none
  | _ => go cs 0
where
  go : List Char → Nat → Option Nat
  | [], acc => some acc
  | c :: cs, acc => if c.isDigit then go cs (acc * 10 + (c.toNat - 48)) else none

/-- `datetime.strptime(s, "%Y-%m-%d")`: split on the two dashes, read the
three decimal fields, and validate month and day ranges; `none` models
the `ValueError` raised on a malformed or impossible date. -/
def parseDate (s : String) : Option Date :=
  match splitOnPred (fun c => c == '-') s.toList with
  | [ys, ms, ds] =>
      match digitsToNat ys, digitsToNat ms, digitsToNat ds with
      | some y, some m, some d =>
          if 1 ≤ m ∧ m ≤ 12 ∧ 1 ≤ d ∧ d ≤ daysInMonth y m then some ⟨y, m, d⟩
          else none
      | _, _, _ => none
  | _ => none

/-- Python tuple comparison `(m1, d1) < (m2, d2)`: lexicographic order. -/
def monthDayLt (m1 d1 m2 d2 : Nat) : Bool :=
  m1 < m2 || (m1 == m2 && d1 < d2)

/-- `calculate_age` (identical in analyse.py and analyser2020.py):
`today.year - born.year - ((today.month, today.day) < (born.month, born.day))`,
with the boolean coerced to 0 or 1.  `date.today()` is passed explicitly. -/
def calculate_age (born today : Date) : Int :=
  (today.year : Int) - (born.year : Int) -
    (if monthDayLt today.month today.day born.month born.day then 1 else 0)

/-- `calculate_age` applied to the birth-date string as stored in the
record: parse, then compute; `none` models the parse error. -/
def calculate_age_str (born : String) (today : Date) : Option Int :=
  (parseDate born).map (fun b => calculate_age b today)

namespace Analyse

/-- The course label of the fresh-from-school Clinical Officer course,
the only course evaluated by the legacy `check_qualification`. -/
def coCourse : String :=
  "Ordinary Diploma in Clinical Medicine (fresh from school to become Clinical Officer, three years)"

/-- The course label of the CA-to-CO upgrading course. -/
def caCoCourse : String :=
  "Ordinary Diploma in Clinical Medicine (CA to CO upgrading, one year)"

/-- The course label of the Health Information Science course. -/
def hisCourse : String :=
  "Ordinary Diploma in Health Information Science (three years)"

/-- `credit_c`: "Yes" when the score is C or above (in {A,B,C}), else "No". -/
def credit_c (score : String) : String :=
  if score ∈ ["A", "B", "C"] then "Yes" else "No"

/-- `credit_d`: "Yes" when the score is D or above (in {A,B,C,D}), else "No". -/
def credit_d (score : String) : String :=
  if score ∈ ["A", "B", "C", "D"] then "Yes" else "No"

/-- The deduplication step of `read_data_file` in analyse.py:
`drop_duplicates(subset=["oLevelNumber"])` followed by
`drop_duplicates(subset=["name"])`, both first-wins. -/
def dedup (df : List LRecord) : List LRecord :=
  dropDuplicatesBy LRecord.name (dropDuplicatesBy LRecord.oLevelNumber df []) []

/-- The body of the legacy `check_qualification` loop, applied to one
row whose `Qualify` cell has just been blanked: if the course is the
Clinical Officer course, collect the five `credit_c`/`credit_d`
verdicts and write "No" if any is "No", else "Yes"; other rows keep
the blank verdict. -/
def checkRow (row0 : LRecord) : LRecord :=
  let row := { row0 with qualify := "" }
  if row.course = coCourse then
    let qualifications := [credit_c row.biology, credit_c row.chemistry,
                           credit_d row.physics, credit_d row.maths,
                           credit_d row.english]
    if "No" ∈ qualifications then { row with qualify := "No" }
    else { row with qualify := "Yes" }
  else row

/-- Legacy `check_qualification`: blank the `Qualify` column, then run
the qualification loop over every row. -/
def check_qualification (df : List LRecord) : List LRecord :=
  df.map checkRow

/-- `split_courses`: select the rows of each of the three enumerated
courses by exact string match on the `course` column. -/
def split_courses (df : List LRecord) :
    List LRecord × List LRecord × List LRecord :=
  (df.filter (fun r => r.course = caCoCourse),
   df.filter (fun r => r.course = coCourse),
   df.filter (fun r => r.course = hisCourse))

end Analyse

namespace Analyser2020

/-- The acceptable grades of the newer `check_qualification` (F is not
accepted). -/
def grades : List String := ["A", "B", "C", "D"]

/-- `create_full_name` in analyser2020.py: insert a `full_name` column
holding `first_name + ' ' + second_name + ' ' + surname`. -/
def create_full_name (df : List Record2020) : List Record2020 :=
  df.map fun row =>
    { row with
      full_name := row.first_name ++ " " ++ row.second_name ++ " " ++ row.surname }

/-- The name-normalisation block of `read_data_file` in analyser2020.py:
uppercase and whitespace-collapse the three name columns. -/
def normalizeNames (df : List Record2020) : List Record2020 :=
  df.map fun row =>
    { row with
      first_name := normalizeName row.first_name,
      second_name := normalizeName row.second_name,
      surname := normalizeName row.surname }

/-- The `drop_duplicates(subset=["full_name"])` pass of `read_data_file`
in analyser2020.py, first-wins. -/
def dedupPass (df : List Record2020) : List Record2020 :=
  dropDuplicatesBy Record2020.full_name df []

/-- The deduplication step of `read_data_file` in analyser2020.py:
normalise names, build the full name, then drop full-name duplicates. -/
def dedup (df : List Record2020) : List Record2020 :=
  dedupPass (create_full_name (normalizeNames df))

/-- The body of the newer `check_qualification` loop, applied to one row
whose `Qualify` cell has just been blanked: write "Yes" when biology,
chemistry and physics are all in `grades`, else "No" — regardless of
course, ignoring maths and english. -/
def checkRow (row0 : Record2020) : Record2020 :=
  let row := { row0 with qualify := "" }
  if row.biology ∈ grades ∧ row.chemistry ∈ grades ∧ row.physics ∈ grades then
    { row with qualify := "Yes" }
  else
    { row with qualify := "No" }

/-- Newer `check_qualification`: blank the `Qualify` column, then run
the qualification loop over every row. -/
def check_qualification (df : List Record2020) : List Record2020 :=
  df.map checkRow

end Analyser2020

/-- The legacy eligibility condition as specified: Biology and Chemistry
at credit-or-above ({A,B,C}), Physics, Maths and English at
pass-or-above ({A,B,C,D}). -/
def qualifiesLegacy (r : LRecord) : Prop :=
  r.biology ∈ (["A", "B", "C"] : List String) ∧
  r.chemistry ∈ (["A", "B", "C"] : List String) ∧
  r.physics ∈ (["A", "B", "C", "D"] : List String) ∧
  r.maths ∈ (["A", "B", "C", "D"] : List String) ∧
  r.english ∈ (["A", "B", "C", "D"] : List String)

instance (r : LRecord) : Decidable (qualifiesLegacy r) := by
  unfold qualifiesLegacy; exact inferInstance

/-- The newer eligibility condition as specified: Biology, Chemistry and
Physics each an accepted grade ({A,B,C,D}). -/
def qualifies2020 (r : Record2020) : Prop :=
  r.biology ∈ Analyser2020.grades ∧ r.chemistry ∈ Analyser2020.grades ∧
  r.physics ∈ Analyser2020.grades

instance (r : Record2020) : Decidable (qualifies2020 r) := by
  unfold qualifies2020; exact inferInstance

/-- Blank a legacy record's `Qualify` cell; two records agree on every
field other than `Qualify` exactly when their images under this map are
equal. -/
def eraseQualifyL (r : LRecord) : LRecord := { r with qualify := "" }

/-- Blank a newer record's `Qualify` cell. -/
def eraseQualify2020 (r : Record2020) : Record2020 := { r with qualify := "" }

/-- Lexicographic `(m1, d1) ≥ (m2, d2)` on (month, day) pairs. -/
def monthDayGE (m1 d1 m2 d2 : Nat) : Prop :=
  m2 < m1 ∨ (m2 = m1 ∧ d2 ≤ d1)

instance (m1 d1 m2 d2 : Nat) : Decidable (monthDayGE m1 d1 m2 d2) := by
  unfold monthDayGE; exact inferInstance

/-- `b` is on or before `t` in calendar order. -/
def dateLE (b t : Date) : Prop :=
  b.year < t.year ∨
  (b.year = t.year ∧ (b.month < t.month ∨ (b.month = t.month ∧ b.day ≤ t.day)))

instance (b t : Date) : Decidable (dateLE b t) := by
  unfold dateLE; exact inferInstance

/-- A legacy record whose course matches none of the three enumerated
course labels (such records land in no group of `split_courses`). -/
def matchesNoCourse (r : LRecord) : Prop :=
  r.course ≠ Analyse.caCoCourse ∧ r.course ≠ Analyse.coCourse ∧
  r.course ≠ Analyse.hisCourse

instance (r : LRecord) : Decidable (matchesNoCourse r) := by
  unfold matchesNoCourse; exact inferInstance

/-- A Clinical Officer applicant meeting the legacy thresholds (the
spec's "Yes" example row: biology C, chemistry B, physics D, maths D,
english D). -/
def sampleYes : LRecord :=
  { course := Analyse.coCourse, biology := "C", chemistry := "B",
    physics := "D", maths := "D", english := "D" }

/-- An applicant to a non-evaluated course (Health Information Science). -/
def sampleOther : LRecord :=
  { course := Analyse.hisCourse, biology := "A", chemistry := "A",
    physics := "A", maths := "A", english := "A" }

/-- A newer-schema applicant with biology, chemistry and physics all D
(the spec's newer-generation "Yes" example). -/
def sample2020 : Record2020 :=
  { biology := "D", chemistry := "D", physics := "D" }

/-- First of two distinct records with blank registration numbers. -/
def blankRegA : LRecord := { name := "ALICE UPENDO" }

/-- Second of two distinct records with blank registration numbers. -/
def blankRegB : LRecord := { name := "BARAKA JUMA" }

/-- A raw newer-schema row with a blank (whitespace-only) second name. -/
def blankMiddleName : Record2020 :=
  { first_name := " john ", second_name := " ", surname := " Doe " }

end AnalyseApplications

namespace AnalyseApplications

theorem dropDuplicatesBy_sublist (key : α → String) (l : List α) :
    ∀ seen, List.Sublist (dropDuplicatesBy key l seen) l := by
  induction l with
  | nil => intro seen; simp [dropDuplicatesBy]
  | cons r rs ih =>
      intro seen
      simp only [dropDuplicatesBy]
      split
      · exact (ih seen).cons r
      · exact (ih _).cons₂ r

theorem dropDuplicatesBy_keys (key : α → String) (l : List α) :
    ∀ seen, ((dropDuplicatesBy key l seen).map key).Nodup ∧
      ∀ k ∈ (dropDuplicatesBy key l seen).map key, k ∉ seen := by
  induction l with
  | nil => intro seen; simp [dropDuplicatesBy]
  | cons r rs ih =>
      intro seen
      simp only [dropDuplicatesBy]
      split
      · exact ih seen
      · rename_i hseen
        obtain ⟨h1, h2⟩ := ih (key r :: seen)
        refine ⟨?_, ?_⟩
        · simp only [List.map_cons, List.nodup_cons]
          exact ⟨fun hk => (h2 _ hk) (List.mem_cons_self _ _), h1⟩
        · intro k hk
          simp only [List.map_cons, List.mem_cons] at hk
          rcases hk with rfl | hk
          · exact hseen
          · exact fun hks => (h2 k hk) (List.mem_cons_of_mem _ hks)

theorem dropDuplicatesBy_eq_self (key : α → String) (l : List α) :
    ∀ seen, (l.map key).Nodup → (∀ k ∈ l.map key, k ∉ seen) →
      dropDuplicatesBy key l seen = l := by
  induction l with
  | nil => intro seen _ _; simp [dropDuplicatesBy]
  | cons r rs ih =>
      intro seen hnd hdisj
      simp only [List.map_cons, List.nodup_cons] at hnd
      have hrs : key r ∉ seen := hdisj _ (by simp)
      simp only [dropDuplicatesBy, if_neg hrs]
      congr 1
      apply ih
      · exact hnd.2
      · intro k hk
        simp only [List.mem_cons]
        rintro (rfl | hks)
        · exact hnd.1 hk
        · exact hdisj k (by simp [hk]) hks

theorem key_mem_dropDuplicatesBy (key : α → String) (l : List α) :
    ∀ seen k, k ∈ l.map key → k ∉ seen →
      k ∈ (dropDuplicatesBy key l seen).map key := by
  induction l with
  | nil => simp
  | cons r rs ih =>
      intro seen k hk hks
      simp only [List.map_cons, List.mem_cons] at hk
      simp only [dropDuplicatesBy]
      split
      · rename_i hmem
        rcases hk with rfl | hk
        · exact absurd hmem hks
        · exact ih seen k hk hks
      · rcases hk with rfl | hk
        · simp
        · by_cases hkr : k = key r
          · subst hkr; simp
          · simp only [List.map_cons, List.mem_cons]
            exact Or.inr (ih _ k hk (by simp [hks, hkr]))

theorem length_le_one_of_nodup_const (c : String) :
    ∀ (m : List String), m.Nodup → (∀ x ∈ m, x = c) → m.length ≤ 1
  | [], _, _ => by simp
  | [_], _, _ => by simp
  | x :: y :: m, hnd, hc => by
      have hx : x = c := hc x (by simp)
      have hy : y = c := hc y (by simp)
      subst hx; subst hy
      simp [List.nodup_cons] at hnd

end AnalyseApplications

namespace AnalyseApplications

theorem yes_ne_no : ("Yes" : String) ≠ "No" := by decide

theorem credit_c_no_iff (s : String) :
    ("No" = Analyse.credit_c s) ↔ s ∉ (["A", "B", "C"] : List String) := by
  unfold Analyse.credit_c
  split
  · rename_i h
    exact ⟨fun he => absurd he.symm yes_ne_no, fun hn => absurd h hn⟩
  · rename_i h
    exact ⟨fun _ => h, fun _ => rfl⟩

theorem credit_d_no_iff (s : String) :
    ("No" = Analyse.credit_d s) ↔ s ∉ (["A", "B", "C", "D"] : List String) := by
  unfold Analyse.credit_d
  split
  · rename_i h
    exact ⟨fun he => absurd he.symm yes_ne_no, fun hn => absurd h hn⟩
  · rename_i h
    exact ⟨fun _ => h, fun _ => rfl⟩

theorem no_mem_qualifications_iff (r : LRecord) :
    ("No" ∈ [Analyse.credit_c r.biology, Analyse.credit_c r.chemistry,
             Analyse.credit_d r.physics, Analyse.credit_d r.maths,
             Analyse.credit_d r.english]) ↔ ¬ qualifiesLegacy r := by
  simp only [List.mem_cons, List.not_mem_nil, or_false]
  rw [credit_c_no_iff, credit_c_no_iff, credit_d_no_iff, credit_d_no_iff,
      credit_d_no_iff]
  unfold qualifiesLegacy
  tauto

theorem eraseQualifyL_checkRow (r : LRecord) :
    eraseQualifyL (Analyse.checkRow r) = eraseQualifyL r := by
  unfold Analyse.checkRow eraseQualifyL
  dsimp only
  split
  · split <;> rfl
  · rfl

theorem checkRow_field_course (r : LRecord) :
    (Analyse.checkRow r).course = r.course := by
  unfold Analyse.checkRow
  dsimp only
  split
  · split <;> rfl
  · rfl

theorem checkRow_field_biology (r : LRecord) :
    (Analyse.checkRow r).biology = r.biology := by
  unfold Analyse.checkRow
  dsimp only
  split
  · split <;> rfl
  · rfl

theorem checkRow_field_chemistry (r : LRecord) :
    (Analyse.checkRow r).chemistry = r.chemistry := by
  unfold Analyse.checkRow
  dsimp only
  split
  · split <;> rfl
  · rfl

theorem checkRow_field_physics (r : LRecord) :
    (Analyse.checkRow r).physics = r.physics := by
  unfold Analyse.checkRow
  dsimp only
  split
  · split <;> rfl
  · rfl

theorem checkRow_field_maths (r : LRecord) :
    (Analyse.checkRow r).maths = r.maths := by
  unfold Analyse.checkRow
  dsimp only
  split
  · split <;> rfl
  · rfl

theorem checkRow_field_english (r : LRecord) :
    (Analyse.checkRow r).english = r.english := by
  unfold Analyse.checkRow
  dsimp only
  split
  · split <;> rfl
  · rfl

theorem checkRow_qualifiesLegacy (r : LRecord) :
    qualifiesLegacy (Analyse.checkRow r) ↔ qualifiesLegacy r := by
  unfold qualifiesLegacy
  rw [checkRow_field_biology, checkRow_field_chemistry, checkRow_field_physics,
      checkRow_field_maths, checkRow_field_english]

theorem checkRow_qualify_of_co (r : LRecord) (hc : r.course = Analyse.coCourse) :
    (Analyse.checkRow r).qualify = if qualifiesLegacy r then "Yes" else "No" := by
  unfold Analyse.checkRow
  dsimp only
  rw [if_pos hc]
  by_cases hq : qualifiesLegacy r
  · rw [if_neg (fun hm => ((no_mem_qualifications_iff r).mp hm) hq), if_pos hq]
  · rw [if_pos ((no_mem_qualifications_iff r).mpr hq), if_neg hq]

theorem checkRow_qualify_of_not_co (r : LRecord) (hc : r.course ≠ Analyse.coCourse) :
    (Analyse.checkRow r).qualify = "" := by
  unfold Analyse.checkRow
  dsimp only
  rw [if_neg hc]

end AnalyseApplications

namespace AnalyseApplications

theorem checkRow2020_field_biology (r : Record2020) :
    (Analyser2020.checkRow r).biology = r.biology := by
  unfold Analyser2020.checkRow
  dsimp only
  split <;> rfl

theorem checkRow2020_field_chemistry (r : Record2020) :
    (Analyser2020.checkRow r).chemistry = r.chemistry := by
  unfold Analyser2020.checkRow
  dsimp only
  split <;> rfl

theorem checkRow2020_field_physics (r : Record2020) :
    (Analyser2020.checkRow r).physics = r.physics := by
  unfold Analyser2020.checkRow
  dsimp only
  split <;> rfl

theorem checkRow2020_qualifies (r : Record2020) :
    qualifies2020 (Analyser2020.checkRow r) ↔ qualifies2020 r := by
  unfold qualifies2020
  rw [checkRow2020_field_biology, checkRow2020_field_chemistry,
      checkRow2020_field_physics]

theorem checkRow2020_qualify (r : Record2020) :
    (Analyser2020.checkRow r).qualify = if qualifies2020 r then "Yes" else "No" := by
  unfold Analyser2020.checkRow
  dsimp only
  by_cases h : qualifies2020 r
  · unfold qualifies2020 at h
    rw [if_pos h, if_pos (by unfold qualifies2020; exact h)]
  · unfold qualifies2020 at h
    rw [if_neg h, if_neg (by unfold qualifies2020; exact h)]

theorem eraseQualify2020_checkRow (r : Record2020) :
    eraseQualify2020 (Analyser2020.checkRow r) = eraseQualify2020 r := by
  unfold Analyser2020.checkRow eraseQualify2020
  dsimp only
  split <;> rfl

end AnalyseApplications

namespace AnalyseApplications

/-- C1: in the legacy pipeline, for every record whose course is the
Clinical Officer course, the Qualify field is "Yes" iff biology and
chemistry are each in {A,B,C} and physics, maths and english are each
in {A,B,C,D}, and "No" otherwise. -/
theorem legacy_qualify_yes_iff (df : List LRecord) (r : LRecord)
    (hr : r ∈ Analyse.check_qualification df)
    (hc : r.course = Analyse.coCourse) :
    (r.qualify = "Yes" ↔ qualifiesLegacy r) ∧
    (r.qualify = "No" ↔ ¬ qualifiesLegacy r) := by
  obtain ⟨a, _, rfl⟩ := List.mem_map.mp hr
  have hca : a.course = Analyse.coCourse := by
    rw [← checkRow_field_course]; exact hc
  rw [checkRow_qualifiesLegacy, checkRow_qualify_of_co a hca]
  by_cases hq : qualifiesLegacy a
  · rw [if_pos hq]
    exact ⟨⟨fun _ => hq, fun _ => rfl⟩,
           ⟨fun he => absurd he yes_ne_no, fun hn => absurd hq hn⟩⟩
  · rw [if_neg hq]
    exact ⟨⟨fun he => absurd he.symm yes_ne_no, fun hqa => absurd hqa hq⟩,
           ⟨fun _ => hq, fun _ => rfl⟩⟩

/-- C1 witness: the spec's "Yes" example row evaluated concretely. -/
theorem legacy_qualify_yes_iff_witness :
    (({ sampleYes with qualify := "Yes" } : LRecord).qualify = "Yes" ↔
       qualifiesLegacy { sampleYes with qualify := "Yes" }) ∧
    (({ sampleYes with qualify := "Yes" } : LRecord).qualify = "No" ↔
       ¬ qualifiesLegacy { sampleYes with qualify := "Yes" }) :=
  legacy_qualify_yes_iff [sampleYes] { sampleYes with qualify := "Yes" }
    (by decide) (by decide)

end AnalyseApplications

namespace AnalyseApplications

/-- C2: in the newer pipeline, for every record regardless of course,
the Qualify field is "Yes" iff biology, chemistry and physics are each
in {A,B,C,D}, and "No" otherwise; maths and english are not consulted. -/
theorem qualify2020_yes_iff (df : List Record2020) (r : Record2020)
    (hr : r ∈ Analyser2020.check_qualification df) :
    (r.qualify = "Yes" ↔ qualifies2020 r) ∧
    (r.qualify = "No" ↔ ¬ qualifies2020 r) := by
  obtain ⟨a, _, rfl⟩ := List.mem_map.mp hr
  rw [checkRow2020_qualifies, checkRow2020_qualify]
  by_cases hq : qualifies2020 a
  · rw [if_pos hq]
    exact ⟨⟨fun _ => hq, fun _ => rfl⟩,
           ⟨fun he => absurd he yes_ne_no, fun hn => absurd hq hn⟩⟩
  · rw [if_neg hq]
    exact ⟨⟨fun he => absurd he.symm yes_ne_no, fun hqa => absurd hqa hq⟩,
           ⟨fun _ => hq, fun _ => rfl⟩⟩

/-- C2 witness: the spec's newer-generation "Yes" example row (biology,
chemistry and physics all D) evaluated concretely. -/
theorem qualify2020_yes_iff_witness :
    (({ sample2020 with qualify := "Yes" } : Record2020).qualify = "Yes" ↔
       qualifies2020 { sample2020 with qualify := "Yes" }) ∧
    (({ sample2020 with qualify := "Yes" } : Record2020).qualify = "No" ↔
       ¬ qualifies2020 { sample2020 with qualify := "Yes" }) :=
  qualify2020_yes_iff [sample2020] { sample2020 with qualify := "Yes" } (by decide)

/-- C9: the legacy eligibility evaluation gives every Clinical Officer
record a "Yes" or "No" verdict and leaves every other record's verdict
blank. -/
theorem legacy_qualify_domain (df : List LRecord) (r : LRecord)
    (hr : r ∈ Analyse.check_qualification df) :
    (r.course = Analyse.coCourse → r.qualify = "Yes" ∨ r.qualify = "No") ∧
    (r.course ≠ Analyse.coCourse → r.qualify = "") := by
  obtain ⟨a, _, rfl⟩ := List.mem_map.mp hr
  constructor
  · intro hc
    have hca : a.course = Analyse.coCourse := by
      rw [← checkRow_field_course]; exact hc
    rw [checkRow_qualify_of_co a hca]
    by_cases hq : qualifiesLegacy a
    · exact Or.inl (if_pos hq)
    · exact Or.inr (if_neg hq)
  · intro hc
    refine checkRow_qualify_of_not_co a (fun h => hc ?_)
    rw [checkRow_field_course]; exact h

/-- C9 witness: a Health Information Science applicant is left with a
blank verdict. -/
theorem legacy_qualify_domain_witness :
    (sampleOther.course = Analyse.coCourse →
       sampleOther.qualify = "Yes" ∨ sampleOther.qualify = "No") ∧
    (sampleOther.course ≠ Analyse.coCourse → sampleOther.qualify = "") :=
  legacy_qualify_domain [sampleOther] sampleOther (by decide)

/-- C10: in both pipelines the eligibility evaluation modifies only the
Qualify field: the output has the same records in the same order and
agrees with the input everywhere once the Qualify cell is blanked. -/
theorem check_qualification_frame (dfL : List LRecord) (dfN : List Record2020) :
    (Analyse.check_qualification dfL).length = dfL.length ∧
    (Analyse.check_qualification dfL).map eraseQualifyL = dfL.map eraseQualifyL ∧
    (Analyser2020.check_qualification dfN).length = dfN.length ∧
    (Analyser2020.check_qualification dfN).map eraseQualify2020 =
      dfN.map eraseQualify2020 := by
  refine ⟨?_, ?_, ?_, ?_⟩
  · simp [Analyse.check_qualification]
  · unfold Analyse.check_qualification
    rw [List.map_map]
    have h : eraseQualifyL ∘ Analyse.checkRow = eraseQualifyL :=
      funext fun r => eraseQualifyL_checkRow r
    rw [h]
  · simp [Analyser2020.check_qualification]
  · unfold Analyser2020.check_qualification
    rw [List.map_map]
    have h : eraseQualify2020 ∘ Analyser2020.checkRow = eraseQualify2020 :=
      funext fun r => eraseQualify2020_checkRow r
    rw [h]

end AnalyseApplications

namespace AnalyseApplications

/-- C3: deduplication is idempotent — re-running the first-wins
registration-number pass and full-name pass on their own output leaves
it unchanged, in both pipelines. -/
theorem dedup_idempotent (dfL : List LRecord) (dfN : List Record2020) :
    Analyse.dedup (Analyse.dedup dfL) = Analyse.dedup dfL ∧
    Analyser2020.dedupPass (Analyser2020.dedupPass dfN) =
      Analyser2020.dedupPass dfN := by
  constructor
  · unfold Analyse.dedup
    set l1 := dropDuplicatesBy LRecord.oLevelNumber dfL [] with hl1
    set l2 := dropDuplicatesBy LRecord.name l1 [] with hl2
    have hsub : List.Sublist l2 l1 := hl2 ▸ dropDuplicatesBy_sublist _ l1 []
    have hreg : ((l2.map LRecord.oLevelNumber)).Nodup :=
      ((dropDuplicatesBy_keys LRecord.oLevelNumber dfL []).1).sublist
        (hsub.map LRecord.oLevelNumber)
    have hname : ((l2.map LRecord.name)).Nodup :=
      (dropDuplicatesBy_keys LRecord.name l1 []).1
    rw [dropDuplicatesBy_eq_self _ l2 [] hreg (by simp)]
    exact dropDuplicatesBy_eq_self _ l2 [] hname (by simp)
  · unfold Analyser2020.dedupPass
    have hname : (((dropDuplicatesBy Record2020.full_name dfN []).map
        Record2020.full_name)).Nodup :=
      (dropDuplicatesBy_keys Record2020.full_name dfN []).1
    exact dropDuplicatesBy_eq_self _ _ [] hname (by simp)

/-- C4 counterexample: two distinct records with blank registration
numbers are not both retained — the pass drops the second. -/
theorem blank_reg_counterexample :
    blankRegA.oLevelNumber = "" ∧ blankRegB.oLevelNumber = "" ∧
    blankRegA ≠ blankRegB ∧
    dropDuplicatesBy LRecord.oLevelNumber [blankRegA, blankRegB] [] =
      [blankRegA] ∧
    blankRegB ∉ dropDuplicatesBy LRecord.oLevelNumber [blankRegA, blankRegB] [] := by
  decide

/-- C4 amended: blank is treated as a shared key by the registration-
number pass — it retains at most one blank-registration record, keeping
the earliest one whenever the input has any. -/
theorem blank_reg_shared_key (l : List LRecord) :
    ((dropDuplicatesBy LRecord.oLevelNumber l []).filter
        (fun r => r.oLevelNumber = "")).length ≤ 1 ∧
    (∀ r ∈ l, r.oLevelNumber = "" →
       ∃ r2 ∈ dropDuplicatesBy LRecord.oLevelNumber l [],
         r2.oLevelNumber = "") := by
  constructor
  · have hnd : ((dropDuplicatesBy LRecord.oLevelNumber l []).map
        LRecord.oLevelNumber).Nodup :=
      (dropDuplicatesBy_keys LRecord.oLevelNumber l []).1
    have hnd2 : (((dropDuplicatesBy LRecord.oLevelNumber l []).filter
        (fun r => r.oLevelNumber = "")).map LRecord.oLevelNumber).Nodup :=
      hnd.sublist ((List.filter_sublist _).map LRecord.oLevelNumber)
    have hlen := length_le_one_of_nodup_const "" _ hnd2 (by
      intro x hx
      obtain ⟨r2, hr2, rfl⟩ := List.mem_map.mp hx
      exact of_decide_eq_true (List.mem_filter.mp hr2).2)
    simpa using hlen
  · intro r hr hblank
    have hk : ("" : String) ∈ (dropDuplicatesBy LRecord.oLevelNumber l []).map
        LRecord.oLevelNumber :=
      key_mem_dropDuplicatesBy LRecord.oLevelNumber l [] ""
        (hblank ▸ List.mem_map_of_mem LRecord.oLevelNumber hr) (by simp)
    obtain ⟨r2, hr2, he⟩ := List.mem_map.mp hk
    exact ⟨r2, hr2, he⟩

end AnalyseApplications

namespace AnalyseApplications

theorem monthDayLt_false_iff (m1 d1 m2 d2 : Nat) :
    monthDayLt m1 d1 m2 d2 = false ↔ monthDayGE m1 d1 m2 d2 := by
  unfold monthDayLt monthDayGE
  simp only [Bool.or_eq_false_iff, Bool.and_eq_false_iff, decide_eq_false_iff_not,
             beq_eq_false_iff_ne, ne_eq, not_lt]
  omega

/-- C5: for every valid YYYY-MM-DD birth date and every current date, the
computed age is today.year − born.year when (today.month, today.day) is
lexicographically at least (born.month, born.day), today.year −
born.year − 1 otherwise, and always one of those two values. -/
theorem calculate_age_formula (s : String) (born today : Date)
    (h : parseDate s = some born) :
    (monthDayGE today.month today.day born.month born.day →
       calculate_age born today = (today.year : Int) - born.year) ∧
    (¬ monthDayGE today.month today.day born.month born.day →
       calculate_age born today = (today.year : Int) - born.year - 1) ∧
    (calculate_age born today = (today.year : Int) - born.year ∨
     calculate_age born today = (today.year : Int) - born.year - 1) := by
  unfold calculate_age
  by_cases hb : monthDayLt today.month today.day born.month born.day = true
  · have hge : ¬ monthDayGE today.month today.day born.month born.day := by
      rw [← monthDayLt_false_iff]
      simp [hb]
    rw [if_pos hb]
    exact ⟨fun hg => absurd hg hge, fun _ => by ring, Or.inr (by ring)⟩
  · have hb' : monthDayLt today.month today.day born.month born.day = false := by
      revert hb
      cases monthDayLt today.month today.day born.month born.day <;> simp
    have hge := (monthDayLt_false_iff _ _ _ _).mp hb'
    rw [if_neg hb]
    exact ⟨fun _ => by ring, fun hn => absurd hge hn, Or.inl (by ring)⟩

/-- C5 witness: a concrete birth date and current date. -/
theorem calculate_age_formula_witness :
    (monthDayGE (10 : Nat) 12 5 17 →
       calculate_age ⟨1990, 5, 17⟩ ⟨2026, 10, 12⟩ = ((2026 : Nat) : Int) - (1990 : Nat)) ∧
    (¬ monthDayGE (10 : Nat) 12 5 17 →
       calculate_age ⟨1990, 5, 17⟩ ⟨2026, 10, 12⟩ = ((2026 : Nat) : Int) - (1990 : Nat) - 1) ∧
    (calculate_age ⟨1990, 5, 17⟩ ⟨2026, 10, 12⟩ = ((2026 : Nat) : Int) - (1990 : Nat) ∨
     calculate_age ⟨1990, 5, 17⟩ ⟨2026, 10, 12⟩ = ((2026 : Nat) : Int) - (1990 : Nat) - 1) :=
  calculate_age_formula "1990-05-17" ⟨1990, 5, 17⟩ ⟨2026, 10, 12⟩ (by decide)

/-- C6 counterexample: a validly formatted birth date lying after the
current date makes the age calculator return a negative value. -/
theorem calculate_age_negative_counterexample :
    parseDate "3000-01-01" = some ⟨3000, 1, 1⟩ ∧
    calculate_age_str "3000-01-01" ⟨2026, 10, 12⟩ = some (-974) ∧
    calculate_age ⟨3000, 1, 1⟩ ⟨2026, 10, 12⟩ < 0 := by
  decide

/-- C6 amended: for every valid YYYY-MM-DD birth date that does not lie
after the current date, the age calculator returns a non-negative
integer. -/
theorem calculate_age_nonneg (s : String) (born today : Date)
    (h : parseDate s = some born) (hle : dateLE born today) :
    0 ≤ calculate_age born today := by
  unfold calculate_age
  unfold dateLE at hle
  by_cases hb : monthDayLt today.month today.day born.month born.day = true
  · rw [if_pos hb]
    unfold monthDayLt at hb
    simp only [Bool.or_eq_true, Bool.and_eq_true, decide_eq_true_eq, beq_iff_eq] at hb
    omega
  · rw [if_neg hb]
    omega

/-- C6 amended witness: a concrete past birth date and current date. -/
theorem calculate_age_nonneg_witness : (0 : Int) ≤ calculate_age ⟨1995, 12, 31⟩ ⟨2026, 10, 12⟩ :=
  calculate_age_nonneg "1995-12-31" ⟨1995, 12, 31⟩ ⟨2026, 10, 12⟩ (by decide) (by decide)

/-- C8: the full-name construction of the newer pipeline, applied to a
normalised row with a blank middle name, produces a double space — the
code contradicts the intended single-space concatenation. -/
theorem create_full_name_blank_double_space :
    (Analyser2020.create_full_name
        (Analyser2020.normalizeNames [blankMiddleName])).map Record2020.full_name =
      ["JOHN" ++ "  " ++ "DOE"] ∧
    ("JOHN" ++ "  " ++ "DOE" : String) ≠ "JOHN DOE" := by
  decide

end AnalyseApplications

namespace AnalyseApplications

theorem courses_pairwise_ne :
    Analyse.caCoCourse ≠ Analyse.coCourse ∧
    Analyse.caCoCourse ≠ Analyse.hisCourse ∧
    Analyse.coCourse ≠ Analyse.hisCourse := by
  decide

theorem split_courses_length_aux (df : List LRecord) :
    (df.filter (fun r => r.course = Analyse.caCoCourse)).length +
    (df.filter (fun r => r.course = Analyse.coCourse)).length +
    (df.filter (fun r => r.course = Analyse.hisCourse)).length +
    (df.filter (fun r => decide (matchesNoCourse r))).length = df.length := by
  obtain ⟨hne1, hne2, hne3⟩ := courses_pairwise_ne
  induction df with
  | nil => simp
  | cons r rs ih =>
      simp only [List.filter_cons, List.length_cons]
      by_cases h1 : r.course = Analyse.caCoCourse
      · rw [if_pos (decide_eq_true h1),
            if_neg (by simp only [decide_eq_true_eq]; exact fun hc => hne1 (h1.symm.trans hc)),
            if_neg (by simp only [decide_eq_true_eq]; exact fun hc => hne2 (h1.symm.trans hc)),
            if_neg (by simp only [decide_eq_true_eq]; exact fun hm => hm.1 h1),
            List.length_cons]
        omega
      · by_cases h2 : r.course = Analyse.coCourse
        · rw [if_neg (by simp only [decide_eq_true_eq]; exact h1),
              if_pos (decide_eq_true h2),
              if_neg (by simp only [decide_eq_true_eq]; exact fun hc => hne3 (h2.symm.trans hc)),
              if_neg (by simp only [decide_eq_true_eq]; exact fun hm => hm.2.1 h2),
              List.length_cons]
          omega
        · by_cases h3 : r.course = Analyse.hisCourse
          · rw [if_neg (by simp only [decide_eq_true_eq]; exact h1),
                if_neg (by simp only [decide_eq_true_eq]; exact h2),
                if_pos (decide_eq_true h3),
                if_neg (by simp only [decide_eq_true_eq]; exact fun hm => hm.2.2 h3),
                List.length_cons]
            omega
          · rw [if_neg (by simp only [decide_eq_true_eq]; exact h1),
                if_neg (by simp only [decide_eq_true_eq]; exact h2),
                if_neg (by simp only [decide_eq_true_eq]; exact h3),
                if_pos (decide_eq_true ⟨h1, h2, h3⟩),
                List.length_cons]
            omega

end AnalyseApplications

namespace AnalyseApplications

/-- C7: legacy course splitting is a disjoint partition of the matching
records — no record lands in two groups, a record is in a group exactly
when its course string-equals that group's label, the group sizes sum to
at most the input size, and strictly less exactly when some record
matches none of the three labels. -/
theorem split_courses_partition (df : List LRecord) :
    (∀ r : LRecord,
       ¬(r ∈ (Analyse.split_courses df).1 ∧ r ∈ (Analyse.split_courses df).2.1) ∧
       ¬(r ∈ (Analyse.split_courses df).1 ∧ r ∈ (Analyse.split_courses df).2.2) ∧
       ¬(r ∈ (Analyse.split_courses df).2.1 ∧ r ∈ (Analyse.split_courses df).2.2)) ∧
    (∀ r : LRecord,
       (r ∈ (Analyse.split_courses df).1 ↔ r ∈ df ∧ r.course = Analyse.caCoCourse) ∧
       (r ∈ (Analyse.split_courses df).2.1 ↔ r ∈ df ∧ r.course = Analyse.coCourse) ∧
       (r ∈ (Analyse.split_courses df).2.2 ↔ r ∈ df ∧ r.course = Analyse.hisCourse)) ∧
    ((Analyse.split_courses df).1.length + (Analyse.split_courses df).2.1.length +
       (Analyse.split_courses df).2.2.length ≤ df.length) ∧
    ((Analyse.split_courses df).1.length + (Analyse.split_courses df).2.1.length +
       (Analyse.split_courses df).2.2.length < df.length ↔
       ∃ r ∈ df, matchesNoCourse r) := by
  obtain ⟨hne1, hne2, hne3⟩ := courses_pairwise_ne
  have haux := split_courses_length_aux df
  unfold Analyse.split_courses
  dsimp only
  refine ⟨?_, ?_, ?_, ?_⟩
  · intro r
    simp only [List.mem_filter, decide_eq_true_eq]
    exact ⟨fun ⟨⟨_, ha⟩, ⟨_, hb⟩⟩ => hne1 (ha.symm.trans hb),
           fun ⟨⟨_, ha⟩, ⟨_, hb⟩⟩ => hne2 (ha.symm.trans hb),
           fun ⟨⟨_, ha⟩, ⟨_, hb⟩⟩ => hne3 (ha.symm.trans hb)⟩
  · intro r
    simp [List.mem_filter]
  · omega
  · constructor
    · intro hlt
      have hpos : 0 < (df.filter (fun r => decide (matchesNoCourse r))).length := by
        omega
      obtain ⟨r, hr⟩ := List.exists_mem_of_length_pos hpos
      obtain ⟨hrdf, hrm⟩ := List.mem_filter.mp hr
      exact ⟨r, hrdf, of_decide_eq_true hrm⟩
    · rintro ⟨r, hrdf, hrm⟩
      have hmem : r ∈ df.filter (fun r => decide (matchesNoCourse r)) :=
        List.mem_filter.mpr ⟨hrdf, decide_eq_true hrm⟩
      have hpos := List.length_pos_of_mem hmem
      omega

end AnalyseApplications
